import Mathlib

/-!
Verification of the finance_analyst weekly stock pipeline.

Shallow embedding of `src/StockAgent.py` and `src/weekly_stock_agent.py`.
Prices are modelled as rationals (Python floats); a daily bar keeps the
Open and Close columns that the code reads.  External calls (yfinance
download, the news HTTP request, the chat-completion call) are modelled
as explicit result values passed in, with `Except.error` standing for a
raised exception at the call site.
-/

/-- One daily bar of a price table; the code only reads the `Open` of the
first row and the `Close` of the last row. -/
structure Bar where
  openPrice : ℚ
  closePrice : ℚ
deriving DecidableEq

/-- A per-ticker price table: the ordered rows of the 7-day download. -/
abbrev PriceSeries := List Bar

/-- `data.iloc[0]['Open']`; only used behind non-emptiness guards. -/
def firstOpen : PriceSeries → ℚ
  | [] => 0
  | b :: _ => b.openPrice

/-- `data.iloc[-1]['Close']`; only used behind non-emptiness guards. -/
def lastClose (d : PriceSeries) : ℚ :=
  match d.getLast? with
  | none => 0
  | some b => b.closePrice

/-- The percent-change formula shared by both scripts:
`((close_price - open_price) / open_price) * 100`
(StockAgent.py line 99 and weekly_stock_agent.py line 47).
In ℚ a zero `open_price` makes the division 0; in Python it raises
`ZeroDivisionError`, which `make_recommendations` swallows (its bare
`except` skips the ticker, and 0 < 5 skips it here as well). -/
def percent_change (d : PriceSeries) : ℚ :=
  (lastClose d - firstOpen d) / firstOpen d * 100

/-- Python `round(x, 2)`: round to 2 decimal places.  Mathlib's `round`
rounds half up while Python rounds half to even; the difference only
shows at exact half-cent ties, which no claim exercises. -/
def round2 (q : ℚ) : ℚ := ((round (q * 100) : ℤ) : ℚ) / 100

/-- ASCII lowering of a string, modelling Python `str.lower()` (the
needle "positive" is pure ASCII, so only ASCII case matters here). -/
def lowerChars (s : String) : List Char := s.data.map Char.toLower

/-- Does the second list start with the first one? -/
def listStartsWith : List Char → List Char → Bool
  | [], _ => true
  | _ :: _, [] => false
  | a :: as, b :: bs => a == b && listStartsWith as bs

/-- Python `needle in haystack` on character lists. -/
def listContainsSeq (needle : List Char) : List Char → Bool
  | [] => listStartsWith needle []
  | c :: cs => listStartsWith needle (c :: cs) || listContainsSeq needle cs

/-- `"positive" in sentiment.lower()` (StockAgent.py line 102). -/
def containsPositive (s : String) : Bool :=
  listContainsSeq "positive".data (lowerChars s)

/-- Python `dict.get(key, default)` on an association list (dict keys are
unique, so first-match lookup is the dict lookup). -/
def dictGet (m : List (String × String)) (k dflt : String) : String :=
  match m with
  | [] => dflt
  | (k2, v) :: rest => if k2 = k then v else dictGet rest k dflt

/-- The record built at StockAgent.py lines 103-109. -/
structure Recommendation where
  ticker : String
  change : ℚ
  entry_price : ℚ
  exit_price : ℚ
  sentiment : String
deriving DecidableEq

/-- `make_recommendations` (StockAgent.py lines 87-112).  `stock_data`
and `sentiment_analysis` are the two dicts; iteration follows insertion
order.  The `data.empty or len(data) < 2` guard is `data.length < 2`
(an empty table has length 0 < 2).  The bare `except` around the body
can only fire on `ZeroDivisionError` (first open equal to 0), in which
case the ticker is skipped; in ℚ that division yields 0 < 5, which
skips the ticker identically, so no explicit guard is needed. -/
def make_recommendations (stock_data : List (String × PriceSeries))
    (sentiment_analysis : List (String × String)) : List Recommendation :=
  match stock_data with
  | [] => []
  | (ticker, data) :: rest =>
    if data.length < 2 then
      make_recommendations rest sentiment_analysis
    else
      let sentiment := dictGet sentiment_analysis ticker ""
      if 5 ≤ percent_change data ∧ containsPositive sentiment = true then
        { ticker := ticker
          change := round2 (percent_change data)
          entry_price := round2 (firstOpen data)
          exit_price := round2 (lastClose data)
          sentiment := sentiment } :: make_recommendations rest sentiment_analysis
      else
        make_recommendations rest sentiment_analysis

/-- Does the output contain a recommendation for ticker `t`? -/
def recommendsTicker (recs : List Recommendation) (t : String) : Bool :=
  recs.any (fun rec => rec.ticker == t)

/-- The record built at weekly_stock_agent.py lines 54-59 (no sentiment
field in the weekly script). -/
structure WeeklyRec where
  ticker : String
  change : ℚ
  entry_price : ℚ
  exit_price : ℚ
deriving DecidableEq

/-- The per-ticker loop of `analyze_returns` (weekly_stock_agent.py lines
36-60), accumulating the unranked `recommendations` list.  The guard is
`data.empty or len(data) < 5`, i.e. `data.length < 5`.  There is no
try/except in this function, so a zero first open price (Python
`ZeroDivisionError`) propagates out of the loop: that is the
`Except.error` case. -/
def analyze_returns_core : List (String × PriceSeries) → Except Unit (List WeeklyRec)
  | [] => Except.ok []
  | (ticker, data) :: rest =>
    if data.length < 5 then
      analyze_returns_core rest
    else if firstOpen data = 0 then
      Except.error ()
    else
      match analyze_returns_core rest with
      | Except.error e => Except.error e
      | Except.ok recs =>
        if 5 ≤ percent_change data then
          Except.ok ({ ticker := ticker
                       change := round2 (percent_change data)
                       entry_price := round2 (firstOpen data)
                       exit_price := round2 (lastClose data) } :: recs)
        else
          Except.ok recs

/-- The sort key of weekly_stock_agent.py line 62:
`sorted(recommendations, key=lambda x: -x['change'])` puts `a` before
`b` exactly when `b.change ≤ a.change` (descending change; Python's
sort and `List.mergeSort` are both stable merge sorts). -/
def changeDescLe (a b : WeeklyRec) : Bool := decide (b.change ≤ a.change)

/-- `analyze_returns` (weekly_stock_agent.py lines 35-62): the loop
above followed by `sorted(recommendations, key=lambda x: -x['change'])[:2]`. -/
def analyze_returns (tickers : List (String × PriceSeries)) : Except Unit (List WeeklyRec) :=
  (analyze_returns_core tickers).map (fun recs => (recs.mergeSort changeDescLe).take 2)

/-- `fetch_stock_data` (StockAgent.py lines 34-45).  `download t` is the
result of `yf.download(t, ...)`: `Except.error` when the call raises.
On a raise the `except` branch only logs, and the assignment
`stock_data[ticker] = data` is inside the `try`, so the ticker is *not*
added to the returned dict; an empty (but non-raising) result is added
as-is after a logged warning. -/
def fetch_stock_data (download : String → Except Unit PriceSeries) :
    List String → List (String × PriceSeries)
  | [] => []
  | t :: ts =>
    match download t with
    | Except.error _ => fetch_stock_data download ts
    | Except.ok data => (t, data) :: fetch_stock_data download ts

/-- `analyze_sentiment` (StockAgent.py lines 68-84): the chat-completion
call is modelled by its outcome; on success the code returns the
response content stripped (`String.trim` for Python `str.strip()`), on
any raise the fixed sentinel. -/
def analyze_sentiment (stock_name news : String) (completion : Except String String) : String :=
  match completion with
  | Except.ok content => content.trim
  | Except.error _ => "Sentiment analysis failed."

/-- One news article as read by StockAgent.py line 61: `a['title']` is
required, `a.get('description', '')` may be absent. -/
structure Article where
  title : String
  description : Option String
deriving DecidableEq

/-- The parsed JSON body of the newsdata.io response: `data.get("status")`
and the optional `"results"` list. -/
structure NewsJson where
  status : Option String
  results : Option (List Article)
deriving DecidableEq

/-- Outcome of the `requests.get` + `raise_for_status` + `.json()`
sequence (StockAgent.py lines 53-55): the HTTP layer raised, the JSON
decode raised, or a parsed body came back. -/
inductive NewsHttpResult where
  | httpError (msg : String)
  | badJson (msg : String)
  | parsed (j : NewsJson)

/-- The error sentinel of StockAgent.py line 65:
`f"Error fetching news for {stock_name}: {e}"`. -/
def newsErrorMsg (stock_name msg : String) : String :=
  "Error fetching news for " ++ stock_name ++ ": " ++ msg

/-- The no-news sentinel of StockAgent.py line 58. -/
def noNewsMsg (stock_name : String) : String :=
  "No news articles found for " ++ stock_name ++ "."

/-- `fetch_newsdata` (StockAgent.py lines 48-65).  The `api_key` only
feeds the request URL, which the model abstracts into `resp`.  Any
exception inside the `try` (HTTP error or JSON decode error) lands in
the `except` branch; a parsed body with `status != "success"` or
without a `"results"` key gives the no-news sentinel; otherwise the
first 5 results are formatted `f"{i+1}. {title} - {description}"` and
joined with blank lines. -/
def fetch_newsdata (stock_name api_key : String) (resp : NewsHttpResult) : String :=
  match resp with
  | NewsHttpResult.httpError m => newsErrorMsg stock_name m
  | NewsHttpResult.badJson m => newsErrorMsg stock_name m
  | NewsHttpResult.parsed j =>
    if j.status ≠ some "success" ∨ j.results = none then
      noNewsMsg stock_name
    else
      String.intercalate "\n\n"
        (((j.results.getD []).take 5).enum.map
          (fun p => toString (p.1 + 1) ++ ". " ++ p.2.title ++ " - " ++ p.2.description.getD ""))

/-- Python `"{:<w}".format(s)`: left-justify to width `w` with spaces,
never truncating. -/
def padTo (s : String) (w : Nat) : String :=
  s ++ String.mk (List.replicate (w - s.length) ' ')

/-- Rendering of a two-decimal rational the way Python prints the float
in an f-string: `6.0`, `6.25`, `-2.5`.  Only ever applied to `round2`
outputs (denominator dividing 100); it keeps at least one fractional
digit and drops a trailing zero cent digit, matching `repr(float)` on
such values. -/
def ratFloatStr (q : ℚ) : String :=
  let cents : ℤ := q.num * (100 / (q.den : ℤ))
  let a := cents.natAbs
  let frac := a % 100
  (if cents < 0 then "-" else "") ++ toString (a / 100) ++ "." ++
    (if frac % 10 = 0 then toString (frac / 10)
     else if frac < 10 then "0" ++ toString frac
     else toString frac)

/-- One recommendation block of the email body (StockAgent.py lines
144-151). -/
def recBlock (rec : Recommendation) : String :=
  "📈 " ++ rec.ticker ++ "\n" ++
  " - Sentiment: " ++ rec.sentiment ++ "\n" ++
  " - Change: " ++ ratFloatStr rec.change ++ "%\n" ++
  " - Entry Price: ₹" ++ ratFloatStr rec.entry_price ++ "\n" ++
  " - Exit Price: ₹" ++ ratFloatStr rec.exit_price ++ "\n\n"

/-- The fixed body head when there are no recommendations
(StockAgent.py line 141). -/
def noPicksMsg : String := "No stock recommendations this week."

/-- The summary-table heading appended unconditionally to the body
(StockAgent.py lines 154-156). -/
def summaryHeader : String :=
  "\n📋 Summary of All Analyzed Stocks:\n" ++
  padTo "Ticker" 12 ++ " " ++ padTo "% Change" 10 ++ " " ++ padTo "Sentiment" 15 ++ "\n" ++
  String.mk (List.replicate 42 '-') ++ "\n"

/-- One summary-table row (StockAgent.py lines 158-166).  The
try/except around the row catches the `IndexError` of `iloc[0]` on an
empty table and the `ZeroDivisionError` of a zero first open, skipping
the row (`none`). -/
def summaryRow (sentiment_analysis : List (String × String)) (p : String × PriceSeries) :
    Option String :=
  match p.2 with
  | [] => none
  | _ :: _ =>
    if firstOpen p.2 = 0 then none
    else
      some (padTo p.1 12 ++ " " ++
        padTo (ratFloatStr (round2 (percent_change p.2)) ++ "%") 10 ++ " " ++
        padTo ((dictGet sentiment_analysis p.1 "N/A").take 50) 15 ++ "\n")

/-- The email body built by `send_email_report` (StockAgent.py lines
139-166): the no-picks line or the recommendation blocks, then the
summary heading, then one row per ticker whose summary computes. -/
def email_body (recommendations : List Recommendation)
    (stock_data : List (String × PriceSeries))
    (sentiment_analysis : List (String × String)) : String :=
  (if recommendations.isEmpty then noPicksMsg
   else "📊 Weekly Stock Recommendations:\n\n" ++ String.join (recommendations.map recBlock)) ++
  summaryHeader ++
  String.join (stock_data.filterMap (summaryRow sentiment_analysis))

/-- Python `repr` of the recommendation dict, as written to the store by
StockAgent.py line 120. -/
def pyDictRepr (rec : Recommendation) : String :=
  "\x7b\x27ticker\x27: \x27" ++ rec.ticker ++ "\x27, \x27change\x27: " ++
  ratFloatStr rec.change ++ ", \x27entry_price\x27: " ++ ratFloatStr rec.entry_price ++
  ", \x27exit_price\x27: " ++ ratFloatStr rec.exit_price ++ ", \x27sentiment\x27: \x27" ++
  rec.sentiment ++ "\x27\x7d"

/-- `store_recommendations` (StockAgent.py lines 115-122), modelled on
the content of `recommendations.txt`: one line
`f"{datetime.now()} | {rec}\n"` is appended per recommendation. -/
def store_recommendations (now : String) (recommendations : List Recommendation)
    (store : List String) : List String :=
  store ++ recommendations.map (fun rec => now ++ " | " ++ pyDictRepr rec)

example :
    make_recommendations [("A", [⟨100, 101⟩, ⟨104, 106⟩])] [("A", "Strongly positive outlook")]
      = [{ ticker := "A", change := 6, entry_price := 100, exit_price := 106,
           sentiment := "Strongly positive outlook" }] := by
  norm_num [make_recommendations, dictGet, percent_change, firstOpen, lastClose, round2,
    round_eq, show containsPositive "Strongly positive outlook" = true from by decide]

example :
    make_recommendations [("A", [⟨100, 101⟩, ⟨104, 102⟩])] [("A", "Strongly positive outlook")]
      = [] := by
  norm_num [make_recommendations, dictGet, percent_change, firstOpen, lastClose, round2, round_eq]

/-- Every produced recommendation comes from an entry of `stock_data`
with at least two bars that passed the inclusion test, and carries the
rounded percent change, entry and exit prices and the looked-up
sentiment. -/
theorem mem_make_recommendations {stock_data : List (String × PriceSeries)}
    {sents : List (String × String)} {rec : Recommendation}
    (h : rec ∈ make_recommendations stock_data sents) :
    ∃ p ∈ stock_data, 2 ≤ p.2.length ∧ 5 ≤ percent_change p.2 ∧
      containsPositive (dictGet sents p.1 "") = true ∧
      rec = { ticker := p.1, change := round2 (percent_change p.2),
              entry_price := round2 (firstOpen p.2), exit_price := round2 (lastClose p.2),
              sentiment := dictGet sents p.1 "" } := by
  induction stock_data with
  | nil => simp [make_recommendations] at h
  | cons hd tl ih =>
    obtain ⟨t, d⟩ := hd
    simp only [make_recommendations] at h
    split at h
    · obtain ⟨p, hp, hrest⟩ := ih h
      exact ⟨p, List.mem_cons_of_mem _ hp, hrest⟩
    · rename_i hlen
      split at h
      · rename_i hc
        rcases List.mem_cons.mp h with heq | hmem
        · exact ⟨(t, d), List.mem_cons_self _ _, Nat.le_of_not_lt hlen, hc.1, hc.2, heq⟩
        · obtain ⟨p, hp, hrest⟩ := ih hmem
          exact ⟨p, List.mem_cons_of_mem _ hp, hrest⟩
      · obtain ⟨p, hp, hrest⟩ := ih h
        exact ⟨p, List.mem_cons_of_mem _ hp, hrest⟩

/-- In a list with pairwise-distinct keys, an entry is determined by its
key. -/
theorem pair_eq_of_nodup_keys {β : Type} {l : List (String × β)} {t : String} {d : β}
    {p : String × β} (hnd : (l.map Prod.fst).Nodup) (hmem : (t, d) ∈ l) (hp : p ∈ l)
    (ht : p.1 = t) : p = (t, d) := by
  induction l with
  | nil => cases hmem
  | cons hd tl ih =>
    rcases List.mem_cons.mp hmem with hdm | hmem'
    · rcases List.mem_cons.mp hp with hpm | hp'
      · rw [hpm, hdm]
      · exfalso
        have h1 : p.1 ∈ tl.map Prod.fst := List.mem_map_of_mem Prod.fst hp'
        have h2 : hd.1 = t := by rw [← hdm]
        rw [ht, ← h2] at h1
        exact (List.nodup_cons.mp hnd).1 h1
    · rcases List.mem_cons.mp hp with hpm | hp'
      · exfalso
        have : t ∈ tl.map Prod.fst := by
          have := List.mem_map_of_mem Prod.fst hmem'
          simpa using this
        rw [← ht, hpm] at this
        exact (List.nodup_cons.mp hnd).1 this
      · exact ih (List.nodup_cons.mp hnd).2 hmem' hp'

/-- A qualifying ticker (two bars, change at least 5, positive
sentiment) is recommended. -/
theorem recommendsTicker_of_qualifies {stock_data : List (String × PriceSeries)}
    {sents : List (String × String)} {t : String} {d : PriceSeries}
    (hmem : (t, d) ∈ stock_data) (hlen : 2 ≤ d.length) (hpc : 5 ≤ percent_change d)
    (hpos : containsPositive (dictGet sents t "") = true) :
    recommendsTicker (make_recommendations stock_data sents) t = true := by
  induction stock_data with
  | nil => cases hmem
  | cons hd tl ih =>
    obtain ⟨t2, d2⟩ := hd
    rcases List.mem_cons.mp hmem with heq | hmem'
    · cases heq
      simp only [make_recommendations]
      rw [if_neg (by omega), if_pos ⟨hpc, hpos⟩]
      simp [recommendsTicker]
    · simp only [make_recommendations]
      split
      · exact ih hmem'
      · split
        · have := ih hmem'
          simp only [recommendsTicker, List.any_cons, Bool.or_eq_true] at this ⊢
          exact Or.inr this
        · exact ih hmem'

/-- C1: for a ticker with at least 2 bars in the price data, a
recommendation is produced if and only if its percent change is at
least 5 and "positive" occurs case-insensitively in its sentiment
text. -/
theorem spec_C1 (stock_data : List (String × PriceSeries)) (sents : List (String × String))
    (t : String) (d : PriceSeries)
    (hnd : (stock_data.map Prod.fst).Nodup) (hmem : (t, d) ∈ stock_data)
    (hlen : 2 ≤ d.length) :
    recommendsTicker (make_recommendations stock_data sents) t = true ↔
      (5 ≤ percent_change d ∧ containsPositive (dictGet sents t "") = true) := by
  constructor
  · intro h
    simp only [recommendsTicker, List.any_eq_true, beq_iff_eq] at h
    obtain ⟨rec, hrec, hticker⟩ := h
    obtain ⟨p, hp, hplen, hpc, hpos, heq⟩ := mem_make_recommendations hrec
    have hp1 : p.1 = t := by rw [← hticker, heq]
    have := pair_eq_of_nodup_keys hnd hmem hp hp1
    rw [this] at hpc hpos
    exact ⟨hpc, hpos⟩
  · rintro ⟨hpc, hpos⟩
    exact recommendsTicker_of_qualifies hmem hlen hpc hpos

/-- C1 witness: the exact boundary cases.  A gains exactly 5.00% with
sentiment "Positive outlook" and is recommended; B gains 4.99% with the
same sentiment and is not; C gains 6% with sentiment "very negative"
and is not. -/
theorem spec_C1_witness :
    recommendsTicker
      (make_recommendations [("A", [⟨100, 103⟩, ⟨104, 105⟩])] [("A", "Positive outlook")])
      "A" = true ∧
    recommendsTicker
      (make_recommendations [("B", [⟨10000, 103⟩, ⟨104, 10499⟩])] [("B", "Positive outlook")])
      "B" = false ∧
    recommendsTicker
      (make_recommendations [("C", [⟨100, 103⟩, ⟨104, 106⟩])] [("C", "very negative")])
      "C" = false := by
  refine ⟨?_, ?_, ?_⟩
  · exact (spec_C1 _ _ "A" [⟨100, 103⟩, ⟨104, 105⟩] (by simp) (List.mem_cons_self _ _)
      (by norm_num)).mpr
      ⟨by norm_num [percent_change, firstOpen, lastClose], by decide⟩
  · have h := spec_C1 [("B", [⟨10000, 103⟩, ⟨104, 10499⟩])] [("B", "Positive outlook")]
      "B" [⟨10000, 103⟩, ⟨104, 10499⟩] (by simp) (List.mem_cons_self _ _) (by norm_num)
    cases hb : recommendsTicker
        (make_recommendations [("B", [⟨10000, 103⟩, ⟨104, 10499⟩])] [("B", "Positive outlook")])
        "B" with
    | false => rfl
    | true =>
      obtain ⟨h5, -⟩ := h.mp hb
      norm_num [percent_change, firstOpen, lastClose] at h5
  · have h := spec_C1 [("C", [⟨100, 103⟩, ⟨104, 106⟩])] [("C", "very negative")]
      "C" [⟨100, 103⟩, ⟨104, 106⟩] (by simp) (List.mem_cons_self _ _) (by norm_num)
    cases hb : recommendsTicker
        (make_recommendations [("C", [⟨100, 103⟩, ⟨104, 106⟩])] [("C", "very negative")])
        "C" with
    | false => rfl
    | true =>
      obtain ⟨-, hpos⟩ := h.mp hb
      exact absurd hpos (by decide)

/-- C3: on a provider raise, `analyze_sentiment` returns exactly the
sentinel "Sentiment analysis failed."; the sentinel does not contain
"positive" (case-insensitively), so a ticker whose sentiment is the
sentinel is never recommended. -/
theorem spec_C3 :
    (∀ stock_name news err,
      analyze_sentiment stock_name news (Except.error err) = "Sentiment analysis failed.") ∧
    containsPositive "Sentiment analysis failed." = false ∧
    (∀ stock_data sents t rec, dictGet sents t "" = "Sentiment analysis failed." →
      rec ∈ make_recommendations stock_data sents → rec.ticker ≠ t) := by
  refine ⟨fun _ _ _ => rfl, by decide, ?_⟩
  intro sd sents t rec hsent hrec hticker
  obtain ⟨p, hp, hplen, hpc, hpos, heq⟩ := mem_make_recommendations hrec
  have hp1 : p.1 = t := by rw [← hticker, heq]
  rw [hp1, hsent] at hpos
  exact absurd hpos (by decide)

/-- C3 witness: with ticker A qualifying and ticker B carrying the
failure sentinel despite a 10% gain, the produced recommendation is not
for B. -/
theorem spec_C3_witness :
    analyze_sentiment "TCS.NS" "some news" (Except.error "boom") = "Sentiment analysis failed." ∧
    ({ ticker := "A", change := 6, entry_price := 100, exit_price := 106,
       sentiment := "Strongly positive outlook" } : Recommendation).ticker ≠ "B" := by
  constructor
  · exact spec_C3.1 "TCS.NS" "some news" "boom"
  · have hout : make_recommendations
        [("A", [⟨100, 101⟩, ⟨104, 106⟩]), ("B", [⟨100, 101⟩, ⟨104, 110⟩])]
        [("A", "Strongly positive outlook"), ("B", "Sentiment analysis failed.")]
        = [{ ticker := "A", change := 6, entry_price := 100, exit_price := 106,
             sentiment := "Strongly positive outlook" }] := by
      norm_num [make_recommendations, dictGet, percent_change, firstOpen, lastClose, round2,
        round_eq, show containsPositive "Strongly positive outlook" = true from by decide,
        show containsPositive "Sentiment analysis failed." = false from by decide]
      decide
    exact spec_C3.2.2 _ _ "B" _ (by decide) (hout ▸ List.mem_cons_self _ _)

/-- A key that is absent from the association list looks up to the
default. -/
theorem dictGet_of_not_mem {sents : List (String × String)} {t dflt : String}
    (h : t ∉ sents.map Prod.fst) : dictGet sents t dflt = dflt := by
  induction sents with
  | nil => rfl
  | cons hd tl ih =>
    obtain ⟨k, v⟩ := hd
    simp only [List.map_cons, List.mem_cons] at h
    push_neg at h
    simp only [dictGet]
    rw [if_neg (fun he => h.1 he.symm)]
    exact ih h.2

/-- C10: a ticker present in the price data but absent from the
sentiment dict gets the empty string as its sentiment and is never
recommended. -/
theorem spec_C10 (stock_data : List (String × PriceSeries)) (sents : List (String × String))
    (t : String) (rec : Recommendation) (habs : t ∉ sents.map Prod.fst) :
    dictGet sents t "" = "" ∧
    (rec ∈ make_recommendations stock_data sents → rec.ticker ≠ t) := by
  refine ⟨dictGet_of_not_mem habs, ?_⟩
  intro hrec hticker
  obtain ⟨p, hp, hplen, hpc, hpos, heq⟩ := mem_make_recommendations hrec
  have hp1 : p.1 = t := by rw [← hticker, heq]
  rw [hp1, dictGet_of_not_mem habs] at hpos
  exact absurd hpos (by decide)

/-- C10 witness: ticker B has a 10% gain and two bars but no sentiment
entry; the recommendation produced (for A) is not for B. -/
theorem spec_C10_witness :
    dictGet [("A", "Strongly positive outlook")] "B" "" = "" ∧
    ({ ticker := "A", change := 6, entry_price := 100, exit_price := 106,
       sentiment := "Strongly positive outlook" } : Recommendation).ticker ≠ "B" := by
  have h := spec_C10
    [("A", [⟨100, 101⟩, ⟨104, 106⟩]), ("B", [⟨100, 101⟩, ⟨104, 110⟩])]
    [("A", "Strongly positive outlook")] "B"
    { ticker := "A", change := 6, entry_price := 100, exit_price := 106,
      sentiment := "Strongly positive outlook" } (by decide)
  refine ⟨h.1, h.2 ?_⟩
  have hout : make_recommendations
      [("A", [⟨100, 101⟩, ⟨104, 106⟩]), ("B", [⟨100, 101⟩, ⟨104, 110⟩])]
      [("A", "Strongly positive outlook")]
      = [{ ticker := "A", change := 6, entry_price := 100, exit_price := 106,
           sentiment := "Strongly positive outlook" }] := by
    norm_num [make_recommendations, dictGet, percent_change, firstOpen, lastClose, round2,
      round_eq, show containsPositive "Strongly positive outlook" = true from by decide,
      show containsPositive "" = false from by decide]
    decide
  exact hout ▸ List.mem_cons_self _ _

/-- A ticker whose series has fewer than 2 bars is skipped by
`make_recommendations`: the output is the one of the remaining
tickers. -/
theorem make_recommendations_skip {sents : List (String × String)}
    (l₁ l₂ : List (String × PriceSeries)) {t : String} {d : PriceSeries}
    (hlen : d.length < 2) :
    make_recommendations (l₁ ++ (t, d) :: l₂) sents = make_recommendations (l₁ ++ l₂) sents := by
  induction l₁ with
  | nil => simp only [List.nil_append, make_recommendations, if_pos hlen]
  | cons hd tl ih =>
    obtain ⟨t2, d2⟩ := hd
    simp only [List.cons_append, make_recommendations, List.append_eq]
    rw [ih]

/-- A ticker whose series has fewer than 5 bars is skipped by the
weekly loop: the outcome is the one of the remaining tickers. -/
theorem analyze_returns_core_skip (l₁ l₂ : List (String × PriceSeries)) {t : String}
    {d : PriceSeries} (hlen : d.length < 5) :
    analyze_returns_core (l₁ ++ (t, d) :: l₂) = analyze_returns_core (l₁ ++ l₂) := by
  induction l₁ with
  | nil => simp only [List.nil_append, analyze_returns_core, if_pos hlen]
  | cons hd tl ih =>
    obtain ⟨t2, d2⟩ := hd
    simp only [List.cons_append, analyze_returns_core, List.append_eq]
    rw [ih]

/-- C6: a ticker with an empty series or fewer than 2 bars produces no
recommendation and is skipped in both variants; the rest of the batch
is processed exactly as if the ticker were absent (in particular no
error outcome is introduced by it). -/
theorem spec_C6 (sents : List (String × String)) (l₁ l₂ m₁ m₂ : List (String × PriceSeries))
    (t u : String) (d e : PriceSeries) (hd2 : d.length < 2) (he2 : e.length < 2) :
    make_recommendations (l₁ ++ (t, d) :: l₂) sents = make_recommendations (l₁ ++ l₂) sents ∧
    (((l₁ ++ (t, d) :: l₂).map Prod.fst).Nodup →
      recommendsTicker (make_recommendations (l₁ ++ (t, d) :: l₂) sents) t = false) ∧
    analyze_returns (m₁ ++ (u, e) :: m₂) = analyze_returns (m₁ ++ m₂) := by
  refine ⟨make_recommendations_skip l₁ l₂ hd2, ?_, ?_⟩
  · intro hnd
    cases hb : recommendsTicker (make_recommendations (l₁ ++ (t, d) :: l₂) sents) t with
    | false => rfl
    | true =>
      exfalso
      simp only [recommendsTicker, List.any_eq_true, beq_iff_eq] at hb
      obtain ⟨rec, hrec, hticker⟩ := hb
      obtain ⟨p, hp, hplen, -, -, heq⟩ := mem_make_recommendations hrec
      have hp1 : p.1 = t := by rw [← hticker, heq]
      have hmem0 : (t, d) ∈ l₁ ++ (t, d) :: l₂ :=
        List.mem_append_right _ (List.mem_cons_self _ _)
      have := pair_eq_of_nodup_keys hnd hmem0 hp hp1
      rw [this] at hplen
      simp only at hplen
      omega
  · unfold analyze_returns
    rw [analyze_returns_core_skip m₁ m₂ (by omega)]

/-- C6 witness: a concrete 1-bar ticker is dropped from both variants
and the remaining 2-bar (resp. 5-bar) tickers are processed
unchanged. -/
theorem spec_C6_witness :
    make_recommendations [("X", [⟨100, 110⟩]), ("A", [⟨100, 101⟩, ⟨104, 106⟩])]
        [("A", "positive")]
      = make_recommendations [("A", [⟨100, 101⟩, ⟨104, 106⟩])] [("A", "positive")] ∧
    recommendsTicker
      (make_recommendations [("X", [⟨100, 110⟩]), ("A", [⟨100, 101⟩, ⟨104, 106⟩])]
        [("A", "positive")]) "X" = false ∧
    analyze_returns [("X", [⟨100, 110⟩]),
        ("A", [⟨100, 101⟩, ⟨101, 102⟩, ⟨102, 103⟩, ⟨103, 104⟩, ⟨104, 110⟩])]
      = analyze_returns [("A", [⟨100, 101⟩, ⟨101, 102⟩, ⟨102, 103⟩, ⟨103, 104⟩, ⟨104, 110⟩])] := by
  have h := spec_C6 [("A", "positive")] []
    [("A", [⟨100, 101⟩, ⟨104, 106⟩])] []
    [("A", [⟨100, 101⟩, ⟨101, 102⟩, ⟨102, 103⟩, ⟨103, 104⟩, ⟨104, 110⟩])]
    "X" "X" [⟨100, 110⟩] [⟨100, 110⟩] (by norm_num) (by norm_num)
  exact ⟨h.1, h.2.1 (by decide), h.2.2⟩

/-- Every record accumulated by the weekly loop comes from an entry
with at least 5 bars whose percent change is at least 5, and carries
the rounded change, entry and exit prices. -/
theorem mem_analyze_returns_core {tickers : List (String × PriceSeries)}
    {out : List WeeklyRec} {rec : WeeklyRec}
    (h : analyze_returns_core tickers = Except.ok out) (hm : rec ∈ out) :
    ∃ p ∈ tickers, 5 ≤ p.2.length ∧ 5 ≤ percent_change p.2 ∧
      rec = { ticker := p.1, change := round2 (percent_change p.2),
              entry_price := round2 (firstOpen p.2), exit_price := round2 (lastClose p.2) } := by
  induction tickers generalizing out with
  | nil =>
    simp only [analyze_returns_core, Except.ok.injEq] at h
    subst h
    cases hm
  | cons hd tl ih =>
    obtain ⟨t, d⟩ := hd
    simp only [analyze_returns_core] at h
    split at h
    · obtain ⟨p, hp, hrest⟩ := ih h hm
      exact ⟨p, List.mem_cons_of_mem _ hp, hrest⟩
    · rename_i hlen
      split at h
      · cases h
      · split at h
        · cases h
        · rename_i recs hcore
          split at h
          · rename_i hpc
            injection h with h
            subst h
            rcases List.mem_cons.mp hm with heq | hmem'
            · exact ⟨(t, d), List.mem_cons_self _ _, Nat.le_of_not_lt hlen, hpc, heq⟩
            · obtain ⟨p, hp, hrest⟩ := ih hcore hmem'
              exact ⟨p, List.mem_cons_of_mem _ hp, hrest⟩
          · injection h with h
            subst h
            obtain ⟨p, hp, hrest⟩ := ih hcore hm
            exact ⟨p, List.mem_cons_of_mem _ hp, hrest⟩

/-- Membership transported through the final sort-and-truncate of
`analyze_returns`. -/
theorem mem_analyze_returns {tickers : List (String × PriceSeries)} {out : List WeeklyRec}
    {rec : WeeklyRec} (h : analyze_returns tickers = Except.ok out) (hm : rec ∈ out) :
    ∃ p ∈ tickers, 5 ≤ p.2.length ∧ 5 ≤ percent_change p.2 ∧
      rec = { ticker := p.1, change := round2 (percent_change p.2),
              entry_price := round2 (firstOpen p.2), exit_price := round2 (lastClose p.2) } := by
  unfold analyze_returns at h
  cases hcore : analyze_returns_core tickers with
  | error e => rw [hcore] at h; cases h
  | ok recs =>
    rw [hcore] at h
    simp only [Except.map, Except.ok.injEq] at h
    subst h
    exact mem_analyze_returns_core hcore
      (List.mem_mergeSort.mp (List.mem_of_mem_take hm))

/-- C2 (amended): when a variant produces a recommendation for a
ticker, the record carries `round((close[-1]-open[0])/open[0]*100, 2)`
as change together with the rounded entry and exit prices; but the
variants differ on the data requirement: `make_recommendations`
processes tickers with at least 2 bars while `analyze_returns` only
processes tickers with at least 5 bars. -/
theorem spec_C2 :
    (∀ (stock_data : List (String × PriceSeries)) (sents : List (String × String))
        (t : String) (d : PriceSeries) (rec : Recommendation),
      (stock_data.map Prod.fst).Nodup → (t, d) ∈ stock_data →
      rec ∈ make_recommendations stock_data sents → rec.ticker = t →
      2 ≤ d.length ∧ rec.change = round2 (percent_change d) ∧
        rec.entry_price = round2 (firstOpen d) ∧ rec.exit_price = round2 (lastClose d)) ∧
    (∀ (tickers : List (String × PriceSeries)) (t : String) (d : PriceSeries)
        (out : List WeeklyRec) (rec : WeeklyRec),
      (tickers.map Prod.fst).Nodup → (t, d) ∈ tickers →
      analyze_returns tickers = Except.ok out → rec ∈ out → rec.ticker = t →
      5 ≤ d.length ∧ rec.change = round2 (percent_change d) ∧
        rec.entry_price = round2 (firstOpen d) ∧ rec.exit_price = round2 (lastClose d)) := by
  constructor
  · intro sd sents t d rec hnd hmem hrec hticker
    obtain ⟨p, hp, hplen, hpc, hpos, heq⟩ := mem_make_recommendations hrec
    have hp1 : p.1 = t := by rw [← hticker, heq]
    have hpd := pair_eq_of_nodup_keys hnd hmem hp hp1
    subst hpd
    simp only at hplen
    refine ⟨hplen, ?_, ?_, ?_⟩ <;> simp [heq]
  · intro tickers t d out rec hnd hmem h hm hticker
    obtain ⟨p, hp, hplen, hpc, heq⟩ := mem_analyze_returns h hm
    have hp1 : p.1 = t := by rw [← hticker, heq]
    have hpd := pair_eq_of_nodup_keys hnd hmem hp hp1
    subst hpd
    simp only at hplen
    refine ⟨hplen, ?_, ?_, ?_⟩ <;> simp [heq]

/-- C2 counterexample: ticker A has exactly 2 bars and a 10% change
with positive sentiment; the unranked variant recommends it, but the
ranked variant `analyze_returns` produces nothing at all for it (its
guard requires at least 5 bars, not 2), refuting the claim that both
variants compute the percent change for every ticker with at least 2
bars. -/
theorem spec_C2_counterexample :
    2 ≤ ([⟨100, 101⟩, ⟨104, 110⟩] : PriceSeries).length ∧
    5 ≤ percent_change [⟨100, 101⟩, ⟨104, 110⟩] ∧
    recommendsTicker
      (make_recommendations [("A", [⟨100, 101⟩, ⟨104, 110⟩])] [("A", "positive")]) "A" = true ∧
    analyze_returns [("A", [⟨100, 101⟩, ⟨104, 110⟩])] = Except.ok [] := by
  refine ⟨by norm_num, by norm_num [percent_change, firstOpen, lastClose], ?_, ?_⟩
  · have hout : make_recommendations [("A", [⟨100, 101⟩, ⟨104, 110⟩])] [("A", "positive")]
        = [{ ticker := "A", change := 10, entry_price := 100, exit_price := 110,
             sentiment := "positive" }] := by
      norm_num [make_recommendations, dictGet, percent_change, firstOpen, lastClose, round2,
        round_eq, show containsPositive "positive" = true from by decide]
    rw [hout]
    decide
  · have hcore : analyze_returns_core [("A", [⟨100, 101⟩, ⟨104, 110⟩])] = Except.ok [] := by
      norm_num [analyze_returns_core]
    simp [analyze_returns, hcore, Except.map, List.mergeSort]

/-- C2 witness: both branches of the amended claim at concrete inputs:
the unranked record for a 2-bar 6% ticker and the ranked record for a
5-bar 10% ticker each carry the rounded change, entry and exit. -/
theorem spec_C2_witness :
    (2 ≤ ([⟨100, 101⟩, ⟨104, 106⟩] : PriceSeries).length ∧
      ({ ticker := "A", change := 6, entry_price := 100, exit_price := 106,
         sentiment := "positive" } : Recommendation).change
        = round2 (percent_change [⟨100, 101⟩, ⟨104, 106⟩]) ∧
      ({ ticker := "A", change := 6, entry_price := 100, exit_price := 106,
         sentiment := "positive" } : Recommendation).entry_price
        = round2 (firstOpen [⟨100, 101⟩, ⟨104, 106⟩]) ∧
      ({ ticker := "A", change := 6, entry_price := 100, exit_price := 106,
         sentiment := "positive" } : Recommendation).exit_price
        = round2 (lastClose [⟨100, 101⟩, ⟨104, 106⟩])) ∧
    (5 ≤ ([⟨100, 101⟩, ⟨101, 102⟩, ⟨102, 103⟩, ⟨103, 104⟩, ⟨104, 110⟩] : PriceSeries).length ∧
      ({ ticker := "W", change := 10, entry_price := 100, exit_price := 110 }
          : WeeklyRec).change
        = round2 (percent_change [⟨100, 101⟩, ⟨101, 102⟩, ⟨102, 103⟩, ⟨103, 104⟩, ⟨104, 110⟩]) ∧
      ({ ticker := "W", change := 10, entry_price := 100, exit_price := 110 }
          : WeeklyRec).entry_price
        = round2 (firstOpen [⟨100, 101⟩, ⟨101, 102⟩, ⟨102, 103⟩, ⟨103, 104⟩, ⟨104, 110⟩]) ∧
      ({ ticker := "W", change := 10, entry_price := 100, exit_price := 110 }
          : WeeklyRec).exit_price
        = round2 (lastClose [⟨100, 101⟩, ⟨101, 102⟩, ⟨102, 103⟩, ⟨103, 104⟩, ⟨104, 110⟩])) := by
  constructor
  · have hout : make_recommendations [("A", [⟨100, 101⟩, ⟨104, 106⟩])] [("A", "positive")]
        = [{ ticker := "A", change := 6, entry_price := 100, exit_price := 106,
             sentiment := "positive" }] := by
      norm_num [make_recommendations, dictGet, percent_change, firstOpen, lastClose, round2,
        round_eq, show containsPositive "positive" = true from by decide]
    exact spec_C2.1 [("A", [⟨100, 101⟩, ⟨104, 106⟩])] [("A", "positive")] "A"
      [⟨100, 101⟩, ⟨104, 106⟩] _ (by simp) (List.mem_cons_self _ _)
      (hout ▸ List.mem_cons_self _ _) rfl
  · have hcore : analyze_returns_core
        [("W", [⟨100, 101⟩, ⟨101, 102⟩, ⟨102, 103⟩, ⟨103, 104⟩, ⟨104, 110⟩])]
        = Except.ok [{ ticker := "W", change := 10, entry_price := 100, exit_price := 110 }] := by
      norm_num [analyze_returns_core, percent_change, firstOpen, lastClose, round2, round_eq]
    have hok : analyze_returns
        [("W", [⟨100, 101⟩, ⟨101, 102⟩, ⟨102, 103⟩, ⟨103, 104⟩, ⟨104, 110⟩])]
        = Except.ok [{ ticker := "W", change := 10, entry_price := 100, exit_price := 110 }] := by
      simp [analyze_returns, hcore, Except.map, List.mergeSort]
    exact spec_C2.2 [("W", [⟨100, 101⟩, ⟨101, 102⟩, ⟨102, 103⟩, ⟨103, 104⟩, ⟨104, 110⟩])] "W"
      [⟨100, 101⟩, ⟨101, 102⟩, ⟨102, 103⟩, ⟨103, 104⟩, ⟨104, 110⟩] _ _
      (by simp) (List.mem_cons_self _ _) hok (List.mem_cons_self _ _) rfl

/-- C7: whatever list `analyze_returns` returns is sorted by descending
change, has at most 2 elements, and only holds tickers whose percent
change over their series is at least 5. -/
theorem spec_C7 (tickers : List (String × PriceSeries)) (out : List WeeklyRec)
    (h : analyze_returns tickers = Except.ok out) :
    out.length ≤ 2 ∧ out.Pairwise (fun a b => b.change ≤ a.change) ∧
    ∀ rec ∈ out, ∃ p ∈ tickers, rec.ticker = p.1 ∧ 5 ≤ percent_change p.2 ∧
      rec.change = round2 (percent_change p.2) := by
  unfold analyze_returns at h
  cases hcore : analyze_returns_core tickers with
  | error e => rw [hcore] at h; cases h
  | ok recs =>
    rw [hcore] at h
    simp only [Except.map, Except.ok.injEq] at h
    subst h
    refine ⟨List.length_take_le _ _, ?_, ?_⟩
    · have hs : (recs.mergeSort changeDescLe).Pairwise (fun a b => changeDescLe a b = true) :=
        List.sorted_mergeSort
          (fun a b c hab hbc => by
            simp only [changeDescLe, decide_eq_true_eq] at hab hbc ⊢
            exact le_trans hbc hab)
          (fun a b => by
            simp only [changeDescLe, Bool.or_eq_true, decide_eq_true_eq]
            exact le_total b.change a.change)
          recs
      exact (List.Pairwise.sublist (List.take_sublist _ _) hs).imp
        (fun hab => by simpa [changeDescLe] using hab)
    · intro rec hm
      obtain ⟨p, hp, hplen, hpc, heq⟩ := mem_analyze_returns_core hcore
        (List.mem_mergeSort.mp (List.mem_of_mem_take hm))
      exact ⟨p, hp, by rw [heq], hpc, by rw [heq]⟩

/-- C7 witness: a concrete run with one qualifying 5-bar ticker returns
a singleton, which is within the top-2 bound and trivially sorted. -/
theorem spec_C7_witness :
    ([{ ticker := "W", change := 10, entry_price := 100, exit_price := 110 }]
      : List WeeklyRec).length ≤ 2 ∧
    ([{ ticker := "W", change := 10, entry_price := 100, exit_price := 110 }]
      : List WeeklyRec).Pairwise (fun a b => b.change ≤ a.change) := by
  have hcore : analyze_returns_core
      [("W", [⟨100, 101⟩, ⟨101, 102⟩, ⟨102, 103⟩, ⟨103, 104⟩, ⟨104, 110⟩])]
      = Except.ok [{ ticker := "W", change := 10, entry_price := 100, exit_price := 110 }] := by
    norm_num [analyze_returns_core, percent_change, firstOpen, lastClose, round2, round_eq]
  have hok : analyze_returns
      [("W", [⟨100, 101⟩, ⟨101, 102⟩, ⟨102, 103⟩, ⟨103, 104⟩, ⟨104, 110⟩])]
      = Except.ok [{ ticker := "W", change := 10, entry_price := 100, exit_price := 110 }] := by
    simp [analyze_returns, hcore, Except.map, List.mergeSort]
  exact ⟨(spec_C7 _ _ hok).1, (spec_C7 _ _ hok).2.1⟩

/-- Processing of one ticker by `fetch_stock_data`, spliced anywhere in
the batch: a raising download is caught, logged and the ticker dropped;
an empty (non-raising) download is stored as an empty series. -/
theorem fetch_stock_data_splice (download : String → Except Unit PriceSeries)
    (l₁ l₂ : List String) (t : String) :
    (∀ e, download t = Except.error e →
      fetch_stock_data download (l₁ ++ t :: l₂) = fetch_stock_data download (l₁ ++ l₂)) ∧
    (download t = Except.ok [] →
      fetch_stock_data download (l₁ ++ t :: l₂)
        = fetch_stock_data download l₁ ++ (t, ([] : PriceSeries)) :: fetch_stock_data download l₂) := by
  induction l₁ with
  | nil =>
    constructor
    · intro e he
      simp only [List.nil_append, fetch_stock_data, he]
    · intro he
      simp only [List.nil_append, fetch_stock_data, he]
  | cons hd tl ih =>
    constructor
    · intro e he
      simp only [List.cons_append, fetch_stock_data, List.append_eq]
      rw [ih.1 e he]
    · intro he
      simp only [List.cons_append, fetch_stock_data, List.append_eq]
      rw [ih.2 he]
      cases download hd <;> simp

/-- C5 counterexample: a download that raises for its only ticker
yields an empty mapping — the failing ticker is not recorded with an
empty series (it is absent), refuting that part of the claim. -/
theorem spec_C5_counterexample :
    fetch_stock_data (fun _ => Except.error ()) ["AXISBANK.NS"] = [] ∧
    ("AXISBANK.NS", ([] : PriceSeries))
      ∉ fetch_stock_data (fun _ => Except.error ()) ["AXISBANK.NS"] := by
  constructor
  · rfl
  · intro h
    simp [fetch_stock_data] at h

/-- C5 (amended): a per-ticker failure is caught individually and never
aborts the batch — the remaining tickers are fetched exactly as if the
failing one were absent — but only a ticker whose download returns an
empty result without raising is recorded with an empty series; a
ticker whose download raises is omitted from the returned mapping. -/
theorem spec_C5 (download : String → Except Unit PriceSeries)
    (l₁ l₂ : List String) (t : String) :
    (∀ e, download t = Except.error e →
      fetch_stock_data download (l₁ ++ t :: l₂) = fetch_stock_data download (l₁ ++ l₂) ∧
      t ∉ (fetch_stock_data download (l₁ ++ t :: l₂)).map Prod.fst ∨
        t ∈ l₁ ++ l₂) ∧
    (download t = Except.ok [] →
      fetch_stock_data download (l₁ ++ t :: l₂)
        = fetch_stock_data download l₁ ++ (t, ([] : PriceSeries)) :: fetch_stock_data download l₂) := by
  constructor
  · intro e he
    by_cases hmem : t ∈ l₁ ++ l₂
    · exact Or.inr hmem
    · refine Or.inl ⟨(fetch_stock_data_splice download l₁ l₂ t).1 e he, ?_⟩
      rw [(fetch_stock_data_splice download l₁ l₂ t).1 e he]
      intro habs
      -- a key of the result is a member of the fetched list
      have : ∀ (ts : List String), t ∉ ts →
          t ∉ (fetch_stock_data download ts).map Prod.fst := by
        intro ts
        induction ts with
        | nil => intro _ h; simp [fetch_stock_data] at h
        | cons hd tl ihts =>
          intro hn h
          simp only [List.mem_cons, not_or] at hn
          rcases hn with ⟨hne, hn2⟩
          cases hdl : download hd with
          | error e2 =>
            rw [fetch_stock_data, hdl] at h
            exact ihts hn2 h
          | ok d =>
            rw [fetch_stock_data, hdl] at h
            simp only [List.map_cons, List.mem_cons] at h
            rcases h with h | h
            · exact hne h
            · exact ihts hn2 h
      exact this (l₁ ++ l₂) hmem habs
  · exact (fetch_stock_data_splice download l₁ l₂ t).2

/-- C5 witness: with B raising and A, C succeeding (C with an empty
frame), the batch result keeps A and records C with an empty series
while B is dropped. -/
theorem spec_C5_witness :
    fetch_stock_data
        (fun s => if s = "B" then Except.error () else
          if s = "C" then Except.ok [] else Except.ok [⟨100, 106⟩])
        (["A"] ++ "B" :: ["C"])
      = fetch_stock_data
        (fun s => if s = "B" then Except.error () else
          if s = "C" then Except.ok [] else Except.ok [⟨100, 106⟩])
        (["A"] ++ ["C"]) ∧
    fetch_stock_data
        (fun s => if s = "B" then Except.error () else
          if s = "C" then Except.ok [] else Except.ok [⟨100, 106⟩])
        (["A"] ++ "C" :: [])
      = fetch_stock_data
          (fun s => if s = "B" then Except.error () else
            if s = "C" then Except.ok [] else Except.ok [⟨100, 106⟩]) ["A"]
        ++ ("C", ([] : PriceSeries)) :: fetch_stock_data
          (fun s => if s = "B" then Except.error () else
            if s = "C" then Except.ok [] else Except.ok [⟨100, 106⟩]) [] := by
  constructor
  · rcases (spec_C5 (fun s => if s = "B" then Except.error () else
        if s = "C" then Except.ok [] else Except.ok [⟨100, 106⟩]) ["A"] ["C"] "B").1 ()
        (by simp) with ⟨heq, -⟩ | hmem
    · exact heq
    · simp at hmem
  · exact (spec_C5 (fun s => if s = "B" then Except.error () else
      if s = "C" then Except.ok [] else Except.ok [⟨100, 106⟩]) ["A"] [] "C").2 (by simp)

/-- C8 (amended): `fetch_newsdata` is total on every modelled response
and returns the error sentinel on HTTP errors and malformed JSON, and
the no-news sentinel on a non-"success" status or a missing "results"
key; a successful response is formatted article text, which for an
empty results list is the empty string — not a sentinel. -/
theorem spec_C8 (stock_name api_key : String) :
    (∀ m, fetch_newsdata stock_name api_key (NewsHttpResult.httpError m)
      = newsErrorMsg stock_name m) ∧
    (∀ m, fetch_newsdata stock_name api_key (NewsHttpResult.badJson m)
      = newsErrorMsg stock_name m) ∧
    (∀ j : NewsJson, (j.status ≠ some "success" ∨ j.results = none) →
      fetch_newsdata stock_name api_key (NewsHttpResult.parsed j) = noNewsMsg stock_name) ∧
    (∀ rs : List Article, fetch_newsdata stock_name api_key
        (NewsHttpResult.parsed ⟨some "success", some rs⟩)
      = String.intercalate "\n\n" ((rs.take 5).enum.map
          (fun p => toString (p.1 + 1) ++ ". " ++ p.2.title ++ " - " ++
            p.2.description.getD ""))) ∧
    fetch_newsdata stock_name api_key (NewsHttpResult.parsed ⟨some "success", some []⟩)
      = "" := by
  refine ⟨fun m => rfl, fun m => rfl, ?_, ?_, ?_⟩
  · intro j hj
    simp only [fetch_newsdata]
    rw [if_pos hj]
  · intro rs
    simp only [fetch_newsdata]
    rw [if_neg]
    · simp
    · rintro (h | h) <;> simp at h
  · simp only [fetch_newsdata]
    rw [if_neg]
    · rfl
    · rintro (h | h) <;> simp at h

/-- C8 counterexample: a successful response whose results list is
empty makes `fetch_newsdata` return the empty string, which is not the
no-news sentinel (nor any descriptive sentinel), refuting the claim
that the empty-results case yields a sentinel string. -/
theorem spec_C8_counterexample :
    fetch_newsdata "TCS" "key" (NewsHttpResult.parsed ⟨some "success", some []⟩) = "" ∧
    noNewsMsg "TCS" ≠ "" ∧ newsErrorMsg "TCS" "timeout" ≠ "" := by
  exact ⟨by decide, by decide, by decide⟩

/-- C8 witness: the sentinel cases at concrete inputs. -/
theorem spec_C8_witness :
    fetch_newsdata "TCS" "key" (NewsHttpResult.httpError "500") = newsErrorMsg "TCS" "500" ∧
    fetch_newsdata "TCS" "key" (NewsHttpResult.badJson "bad") = newsErrorMsg "TCS" "bad" ∧
    fetch_newsdata "TCS" "key" (NewsHttpResult.parsed ⟨some "error", some []⟩)
      = noNewsMsg "TCS" ∧
    fetch_newsdata "TCS" "key" (NewsHttpResult.parsed ⟨some "success", none⟩)
      = noNewsMsg "TCS" := by
  refine ⟨(spec_C8 "TCS" "key").1 "500", (spec_C8 "TCS" "key").2.1 "bad", ?_, ?_⟩
  · exact (spec_C8 "TCS" "key").2.2.1 ⟨some "error", some []⟩ (Or.inl (by decide))
  · exact (spec_C8 "TCS" "key").2.2.1 ⟨some "success", none⟩ (Or.inr rfl)

/-- C9: on a successful response with a non-empty results list the
return value is the first at-most-5 articles formatted as
`"{index}. {title} - {description}"` with 1-based indices, a missing
description rendered as the empty string, joined by blank lines. -/
theorem spec_C9 (stock_name api_key : String) (rs : List Article) (hne : rs ≠ []) :
    fetch_newsdata stock_name api_key (NewsHttpResult.parsed ⟨some "success", some rs⟩)
      = String.intercalate "\n\n" ((rs.take 5).enum.map
          (fun p => toString (p.1 + 1) ++ ". " ++ p.2.title ++ " - " ++
            p.2.description.getD "")) := by
  simp only [fetch_newsdata]
  rw [if_neg]
  · simp
  · rintro (h | h) <;> simp at h

/-- C9 witness: six articles, the second without a description: only
the first five appear, numbered from 1, joined by blank lines, with the
missing description formatted as the empty string. -/
theorem spec_C9_witness :
    fetch_newsdata "TCS" "key" (NewsHttpResult.parsed ⟨some "success", some
      [⟨"T1", some "D1"⟩, ⟨"T2", none⟩, ⟨"T3", some "D3"⟩, ⟨"T4", some "D4"⟩,
       ⟨"T5", some "D5"⟩, ⟨"T6", some "D6"⟩]⟩)
      = "1. T1 - D1\n\n2. T2 - \n\n3. T3 - D3\n\n4. T4 - D4\n\n5. T5 - D5" := by
  rw [spec_C9 "TCS" "key" _ (by decide)]
  decide

/-- C4 (amended): when every fetched series is empty, no
recommendation is produced, the stored file content is unchanged, and
the email body is the fixed no-picks line followed by the (empty)
summary table heading — not the bare no-picks message alone. -/
theorem spec_C4 (stock_data : List (String × PriceSeries)) (sents : List (String × String))
    (now : String) (store : List String)
    (hempty : ∀ p ∈ stock_data, p.2 = ([] : PriceSeries)) :
    make_recommendations stock_data sents = [] ∧
    store_recommendations now (make_recommendations stock_data sents) store = store ∧
    email_body (make_recommendations stock_data sents) stock_data sents
      = noPicksMsg ++ summaryHeader := by
  have hrec : make_recommendations stock_data sents = [] := by
    rw [List.eq_nil_iff_forall_not_mem]
    intro rec hr
    obtain ⟨p, hp, hplen, -, -, -⟩ := mem_make_recommendations hr
    rw [hempty p hp] at hplen
    simp at hplen
  have hrows : stock_data.filterMap (summaryRow sents) = [] := by
    rw [List.filterMap_eq_nil_iff]
    intro p hp
    obtain ⟨t, d⟩ := p
    have hd : d = [] := hempty (t, d) hp
    subst hd
    rfl
  refine ⟨hrec, ?_, ?_⟩
  · rw [hrec]
    simp [store_recommendations]
  · rw [hrec, email_body, hrows]
    simp [String.join, String.append_empty]

set_option maxRecDepth 16000 in
/-- C4 counterexample: with one ticker whose fetch returned an empty
series, the recommendations list is empty, yet the email body is not
the bare no-picks message — the summary-table heading is appended
unconditionally. -/
theorem spec_C4_counterexample :
    make_recommendations [("RELIANCE.NS", [])] [] = [] ∧
    email_body (make_recommendations [("RELIANCE.NS", [])] []) [("RELIANCE.NS", [])] []
      ≠ noPicksMsg := by
  refine ⟨rfl, ?_⟩
  decide

/-- C4 witness: two empty-series tickers — no recommendations, the
store content is unchanged, and the body is exactly the no-picks line
plus the summary heading. -/
theorem spec_C4_witness :
    make_recommendations [("RELIANCE.NS", []), ("TCS.NS", [])] [("RELIANCE.NS", "x")] = [] ∧
    store_recommendations "2025-01-01 10:00"
      (make_recommendations [("RELIANCE.NS", []), ("TCS.NS", [])] [("RELIANCE.NS", "x")])
      ["old line"] = ["old line"] ∧
    email_body
      (make_recommendations [("RELIANCE.NS", []), ("TCS.NS", [])] [("RELIANCE.NS", "x")])
      [("RELIANCE.NS", []), ("TCS.NS", [])] [("RELIANCE.NS", "x")]
      = noPicksMsg ++ summaryHeader :=
  spec_C4 [("RELIANCE.NS", []), ("TCS.NS", [])] [("RELIANCE.NS", "x")]
    "2025-01-01 10:00" ["old line"] (by decide)
